import Mathlib

/-!
Verification of the earthquake risk assessment program
(src/earthquake_risk_assessor.py and its packaged variant
src/src/earthquake_risk_assessor.py).

The program is embedded shallowly:
 - Python floats are modelled as rationals;
 - the transcendental functions of the math module (pi, sin, cos, sqrt,
   atan2) are an external collaborator and are modelled by an abstract
   record of rational functions (MathModel);
 - Python dicts are modelled as association lists with insertion-order,
   last-write-wins semantics (pyDict / pyLookup);
 - Python str.split(sep) is modelled on lists of characters (strSplit);
 - Python exceptions are modelled with Except PyErr; the three
   ZeroDivisionError sites of the scoring formula carry distinct tags so
   that theorems can name the failing division site.

The us_states.txt reference table is external data (it is read from disk
at run time), so every definition and theorem that depends on it is
parametrised by the list of (code, name) rows extracted from that file.
-/

/-- Python exceptions that the modelled code can raise.  The three
ZeroDivision tags all model the single Python ZeroDivisionError; the tag
records which division site raised. -/
inductive PyErr where
  | indexError : PyErr
  | keyError : PyErr
  | zeroDivAvgMagnitude : PyErr
  | zeroDivMagnitudeFactor : PyErr
  | zeroDivNumQuakesFactor : PyErr
deriving DecidableEq, Repr

instance {ε α : Type} [DecidableEq ε] [DecidableEq α] : DecidableEq (Except ε α)
  | .error e, .error f =>
      if h : e = f then .isTrue (by rw [h]) else .isFalse (by simp [h])
  | .error _, .ok _ => .isFalse (by simp)
  | .ok _, .error _ => .isFalse (by simp)
  | .ok a, .ok b =>
      if h : a = b then .isTrue (by rw [h]) else .isFalse (by simp [h])

/-! ## Python dict semantics

A Python dict is an association list whose keys are unique; inserting an
existing key overwrites its value in place, inserting a fresh key appends
it.  Lookup raises KeyError on a missing key, modelled as Option. -/

/-- Insertion (d[k] = v) into a Python dict: overwrite in place if the key
is present, append otherwise. -/
def dictInsert {α β : Type} [DecidableEq α] (d : List (α × β)) (k : α) (v : β) :
    List (α × β) :=
  match d with
  | [] => [(k, v)]
  | (k', v') :: rest =>
      if k' = k then (k', v) :: rest else (k', v') :: dictInsert rest k v

/-- Building a Python dict from a sequence of key/value pairs, as a dict
comprehension does: later pairs overwrite earlier ones. -/
def pyDict {α β : Type} [DecidableEq α] (l : List (α × β)) : List (α × β) :=
  l.foldl (fun d p => dictInsert d p.1 p.2) []

/-- Python dict lookup (d[k]): the value of the first pair with the given
key, none when the key is absent (KeyError). -/
def pyLookup {α β : Type} [DecidableEq α] (d : List (α × β)) (k : α) : Option β :=
  match d with
  | [] => none
  | (k', v) :: rest => if k' = k then some v else pyLookup rest k

/-! ## Python str.split

Python s.split(", "): scan left to right, cut at each non-overlapping
occurrence of the separator.  The result always has at least one element.
The program only ever splits on the two-character separator ", ", so the
model is specialised to it (which keeps the recursion structural). -/

/-- Worker for splitCommaSpace: acc holds the characters of the current
token in reverse. -/
def strSplitAux : List Char → List Char → List (List Char)
  | acc, [] => [acc.reverse]
  | acc, ',' :: ' ' :: rest => acc.reverse :: strSplitAux [] rest
  | acc, c :: cs => strSplitAux (c :: acc) cs

/-- Python s.split(", ") on the character list of s. -/
def splitCommaSpace (s : List Char) : List (List Char) :=
  strSplitAux [] s

/-! ## Data model -/

/-- EarthquakeLocation dataclass: normalized administrative region. -/
structure EarthquakeLocation where
  state_name : String
  state_code : String
deriving DecidableEq, Repr

/-- Earthquake dataclass.  The time field is kept abstract (the provider
timestamp, already parsed); magnitudes and coordinates are rationals. -/
structure Earthquake where
  time : ℚ
  magnitude : ℚ
  latitude : ℚ
  longitude : ℚ
  earthquake_location : EarthquakeLocation
deriving DecidableEq, Repr

/-- EarthquakeRisk dataclass: the risk assessment attached to a client
location. -/
structure EarthquakeRisk where
  nearby_earthquakes : ℕ
  nearby_total_magnitude : ℚ
  avg_magnitude : ℚ
  magnitude_factor : ℚ
  num_quakes_factor : ℚ
  total_risk_factor : ℚ
  should_insure : Bool
deriving DecidableEq, Repr

/-- ClientLocation dataclass.  The Python object carries the declared
fields plus three attributes set by the scorer (nearby_total_magnitude,
nearby_earthquakes are added dynamically; earthquake_risk is overwritten);
those three are modelled as Option fields, none before scoring. -/
structure ClientLocation where
  building_name : String
  location : String
  city : String
  state : String
  full_address : String
  latitude : ℚ
  longitude : ℚ
  nearby_total_magnitude : Option ℚ := none
  nearby_earthquakes : Option ℕ := none
  earthquake_risk : Option EarthquakeRisk := none
deriving DecidableEq, Repr

/-! ## Constants (src/src/constants.py) -/

def RADIUS_OF_EARTH : ℚ := 6371
def MAX_MAGNITUDE : ℚ := 10
def MAX_RISK_FACTOR_TO_INSURE : ℚ := 0.22
def NEARBY_EARTHQUAKE_RADIUS_KM : ℚ := 200

/-! ## State lookup tables

The us_states.txt file is external data; rows is the list of
(code, name) pairs read from it, one per line. -/

/-- Model of __us_state_code_to_name_map: the dict built from the file
rows (dict comprehension over the lines). -/
def us_state_code_to_name_map (rows : List (String × String)) :
    List (String × String) :=
  pyDict rows

/-- Model of __us_state_name_to_code_map: invert the code-to-name dict
(dict comprehension over its items, swapping key and value). -/
def us_state_name_to_code_map (rows : List (String × String)) :
    List (String × String) :=
  pyDict ((us_state_code_to_name_map rows).map (fun p => (p.2, p.1)))

/-- State codes that fall inside the bounding box but are not valid to be
insured (local list skipped_states of parse_earthquake_location). -/
def skipped_states : List String := ["Canada", "MX", "Mexico"]

/-- Last comma-separated token of a place string: what
place.split(", ").pop() returns. -/
def region_designator (place : String) : String :=
  String.mk ((splitCommaSpace place.data).getLastD [])

/-- Model of parse_earthquake_location.  place.split(", ").pop() raises
IndexError on an empty list (which cannot happen, split never returns an
empty list); the two table lookups raise KeyError, caught by the
try/except and turned into a None result. -/
def parse_earthquake_location (rows : List (String × String)) (place : String) :
    Except PyErr (Option EarthquakeLocation) :=
  match (splitCommaSpace place.data).getLast? with
  | none => .error .indexError
  | some last =>
      let state_name := String.mk last
      if state_name ∈ skipped_states then
        .ok none
      else if state_name.length = 2 then
        match pyLookup (us_state_code_to_name_map rows) state_name with
        | none => .ok none
        | some nm => .ok (some ⟨nm, state_name⟩)
      else
        match pyLookup (us_state_name_to_code_map rows) state_name with
        | none => .ok none
        | some code => .ok (some ⟨state_name, code⟩)

/-! ## Geodesic calculator

The math module functions used by haversine_distance are external
(floating-point, transcendental); they are modelled as an abstract record
of rational functions.  math.radians(x) is x * pi / 180. -/

/-- Abstract model of the functions of the Python math module used by the
program. -/
structure MathModel where
  pi : ℚ
  sin : ℚ → ℚ
  cos : ℚ → ℚ
  sqrt : ℚ → ℚ
  atan2 : ℚ → ℚ → ℚ

/-- Model of math.radians: degrees to radians. -/
def MathModel.radians (M : MathModel) (x : ℚ) : ℚ :=
  x * (M.pi / 180)

/-- Model of haversine_distance: great-circle distance in km between two
points given in degrees. -/
def haversine_distance (M : MathModel)
    (latitude_1 longitude_1 latitude_2 longitude_2 : ℚ) : ℚ :=
  let latitude_1_rad := M.radians latitude_1
  let longitude_1_rad := M.radians longitude_1
  let latitude_2_rad := M.radians latitude_2
  let longitude_2_rad := M.radians longitude_2
  let diff_latitude := latitude_2_rad - latitude_1_rad
  let diff_longitude := longitude_2_rad - longitude_1_rad
  let chord := M.sin (diff_latitude / 2) ^ 2
    + M.cos latitude_1_rad * M.cos latitude_2_rad * M.sin (diff_longitude / 2) ^ 2
  let central_angle := 2 * M.atan2 (M.sqrt chord) (M.sqrt (1 - chord))
  RADIUS_OF_EARTH * central_angle

/-- Model of is_within_distance: whether two points are within
limit_distance km of each other. -/
def is_within_distance (M : MathModel)
    (latitude_1 longitude_1 latitude_2 longitude_2 limit_distance : ℚ) : Bool :=
  let haver_distance :=
    haversine_distance M latitude_1 longitude_1 latitude_2 longitude_2
  haver_distance ≤ limit_distance

/-! ## Risk scorer

calculate_earthquake_risk_for_location takes the parsed earthquake list as
a parameter (the source obtains it from the cached
parse_raw_earthquake_data()).  The scorer mutates the client location
(two dynamic attributes plus earthquake_risk) and performs three unguarded
divisions; each division is modelled as raising ZeroDivisionError when its
divisor is zero. -/

/-- Accumulation loop of the scorer: total magnitude and count of the
earthquakes within NEARBY_EARTHQUAKE_RADIUS_KM of the client location. -/
def nearby_stats (M : MathModel) (earthquake_data : List Earthquake)
    (client_location : ClientLocation) : ℚ × ℕ :=
  earthquake_data.foldl
    (fun acc earthquake =>
      if is_within_distance M earthquake.latitude earthquake.longitude
          client_location.latitude client_location.longitude
          NEARBY_EARTHQUAKE_RADIUS_KM then
        (acc.1 + earthquake.magnitude, acc.2 + 1)
      else acc)
    (0, 0)

/-- Events within the nearby radius of the client location: the set the
accumulation loop of the scorer effectively sums over. -/
def nearby_filter (M : MathModel) (earthquake_data : List Earthquake)
    (client_location : ClientLocation) : List Earthquake :=
  earthquake_data.filter (fun earthquake =>
    is_within_distance M earthquake.latitude earthquake.longitude
      client_location.latitude client_location.longitude
      NEARBY_EARTHQUAKE_RADIUS_KM)

/-- Model of calculate_earthquake_risk_for_location.  Python raises
ZeroDivisionError at the first division whose divisor is zero; the three
sites are tagged in order of execution. -/
def calculate_earthquake_risk_for_location (M : MathModel)
    (earthquake_data : List Earthquake) (client_location : ClientLocation) :
    Except PyErr ClientLocation :=
  let stats := nearby_stats M earthquake_data client_location
  let nearby_total_magnitude := stats.1
  let nearby_earthquakes := stats.2
  let client_location :=
    { client_location with
        nearby_total_magnitude := some nearby_total_magnitude
        nearby_earthquakes := some nearby_earthquakes }
  if nearby_earthquakes = 0 then .error .zeroDivAvgMagnitude else
  let avg_magnitude := nearby_total_magnitude / nearby_earthquakes
  if MAX_MAGNITUDE - avg_magnitude = 0 then .error .zeroDivMagnitudeFactor else
  let magnitude_factor := 1 / (MAX_MAGNITUDE - avg_magnitude)
  if (1000 : ℚ) - nearby_earthquakes = 0 then .error .zeroDivNumQuakesFactor else
  let num_quakes_factor := (1 / (1000 - (nearby_earthquakes : ℚ))) * 100
  let total_risk_factor := magnitude_factor + num_quakes_factor
  let should_insure := if total_risk_factor ≥ 0.22 then false else true
  .ok { client_location with
          earthquake_risk := some
            { nearby_earthquakes := nearby_earthquakes
              nearby_total_magnitude := nearby_total_magnitude
              avg_magnitude := avg_magnitude
              magnitude_factor := magnitude_factor
              num_quakes_factor := num_quakes_factor
              total_risk_factor := total_risk_factor
              should_insure := should_insure } }

/-! ## Seismic event repository

parse_raw_earthquake_data iterates over the raw records fetched from the
provider (network); the model takes the list of raw records as a
parameter.  A raw record carries the already-converted numeric fields and
the place text. -/

/-- Raw record of the provider CSV, with the fields the parser reads. -/
structure RawEarthquake where
  time : ℚ
  mag : ℚ
  latitude : ℚ
  longitude : ℚ
  place : String
deriving DecidableEq, Repr

/-- Loop body of parse_raw_earthquake_data for one raw record: resolve
the place, skip the record when the location is None, otherwise append
the built Earthquake. -/
def parse_raw_step (rows : List (String × String))
    (acc : Except PyErr (List Earthquake)) (raw : RawEarthquake) :
    Except PyErr (List Earthquake) :=
  acc >>= fun earthquakes =>
    parse_earthquake_location rows raw.place >>= fun earthquake_location =>
      match earthquake_location with
      | none => .ok earthquakes
      | some loc => .ok (earthquakes ++
          [{ time := raw.time
             magnitude := raw.mag
             latitude := raw.latitude
             longitude := raw.longitude
             earthquake_location := loc }])

/-- Model of parse_raw_earthquake_data: resolve each place, silently drop
records with unresolvable locations, build Earthquake records. -/
def parse_raw_earthquake_data (rows : List (String × String))
    (raw_data : List RawEarthquake) : Except PyErr (List Earthquake) :=
  raw_data.foldl (parse_raw_step rows) (.ok [])

/-! ## Aggregator (risk_rank_by_state)

The ranking dict maps a state name to its accumulated magnitude and
count; the seen list records state codes in order of first appearance.
Updating an entry whose name is absent from the dict raises KeyError in
Python. -/

/-- One ranking entry: accumulated magnitude and count of a state. -/
structure RankEntry where
  magnitude : ℚ
  count : ℕ
deriving DecidableEq, Repr

/-- Update of ranking[name], adding mag to its magnitude and 1 to its
count; KeyError when the name is not a key of the dict. -/
def rankingUpdate (ranking : List (String × RankEntry)) (name : String)
    (mag : ℚ) : Except PyErr (List (String × RankEntry)) :=
  if name ∈ ranking.map Prod.fst then
    .ok (ranking.map fun p =>
      if p.1 = name then (p.1, ⟨p.2.magnitude + mag, p.2.count + 1⟩) else p)
  else .error .keyError

/-- One iteration of the risk_rank_by_state loop. -/
def risk_rank_step (st : List (String × RankEntry) × List String)
    (earthquake : Earthquake) :
    Except PyErr (List (String × RankEntry) × List String) :=
  let (ranking, seen_states) := st
  if earthquake.earthquake_location.state_code ∈ seen_states then
    rankingUpdate ranking earthquake.earthquake_location.state_name
        earthquake.magnitude >>= fun ranking => .ok (ranking, seen_states)
  else
    .ok (ranking ++ [(earthquake.earthquake_location.state_name,
            ⟨earthquake.magnitude, 1⟩)],
         seen_states ++ [earthquake.earthquake_location.state_code])

/-- Accumulation loop of risk_rank_by_state over the earthquake list. -/
def risk_rank_fold (earthquake_data : List Earthquake) :
    Except PyErr (List (String × RankEntry) × List String) :=
  earthquake_data.foldl (fun acc e => acc >>= fun st => risk_rank_step st e)
    (.ok ([], []))

/-- Comparison used by sorted(..., key=count, reverse=True): a stable sort
that puts larger counts first. -/
def rankLE (a b : String × RankEntry) : Bool :=
  b.2.count ≤ a.2.count

/-- Model of risk_rank_by_state, taking the parsed earthquake list as a
parameter (the source obtains it from the cached
parse_raw_earthquake_data()).  Python sorted is a stable sort, modelled by
mergeSort; the final dict comprehension rebuilds the dict in sorted order,
which on an association list with unique keys is the sorted list itself. -/
def risk_rank_by_state (earthquake_data : List Earthquake) :
    Except PyErr (List (String × RankEntry)) :=
  risk_rank_fold earthquake_data >>= fun st => .ok (st.1.mergeSort rankLE)

/-! ## Concrete fixtures used to evaluate the model

M0 sends every angle to 0, so every haversine distance is 0 km and every
event counts as nearby: it is one admissible valuation of the abstract
math-module functions. -/

/-- Trivial math model: all functions are constantly zero. -/
def M0 : MathModel :=
  { pi := 0, sin := fun _ => 0, cos := fun _ => 0, sqrt := fun _ => 0,
    atan2 := fun _ _ => 0 }

/-- Concrete client location, not yet scored. -/
def loc0 : ClientLocation :=
  { building_name := "HQ", location := "Springfield, CA",
    city := "Springfield", state := "CA", full_address := "1 Main St",
    latitude := 37, longitude := -122 }

/-- Concrete earthquake of a given magnitude near loc0. -/
def quake (m : ℚ) : Earthquake :=
  { time := 0, magnitude := m, latitude := 37, longitude := -122,
    earthquake_location := { state_name := "California", state_code := "CA" } }

/-- The value of loc0 after scoring it against the single event quake 2
under M0: one nearby event of magnitude 2, so the average is 2, the
magnitude factor 1/8, the count factor 100/999, the total 1799/7992
(about 0.2251, at least 0.22, hence decline). -/
def locAfter0 : ClientLocation :=
  { loc0 with
      nearby_total_magnitude := some 2
      nearby_earthquakes := some 1
      earthquake_risk := some
        { nearby_earthquakes := 1
          nearby_total_magnitude := 2
          avg_magnitude := 2
          magnitude_factor := 1/8
          num_quakes_factor := 100/999
          total_risk_factor := 1799/7992
          should_insure := false } }

/-- Specification-side description of what parse_raw_earthquake_data does
to a single raw record: the event built from it when its place resolves,
nothing when it does not. -/
def resolveEvent (rows : List (String × String)) (raw : RawEarthquake) :
    Option Earthquake :=
  match parse_earthquake_location rows raw.place with
  | .ok (some loc) =>
      some { time := raw.time, magnitude := raw.mag, latitude := raw.latitude,
             longitude := raw.longitude, earthquake_location := loc }
  | _ => none

/-- Three-row state table used by the concrete repository fixtures. -/
def tbl3 : List (String × String) :=
  [("CA", "California"), ("KS", "Kansas"), ("TX", "Texas")]

/-- Concrete raw records mirroring the mocked provider CSV of the test
suite: all three places resolve against tbl3. -/
def raw1 : RawEarthquake :=
  { time := 0, mag := 254/100, latitude := 39, longitude := -122,
    place := "10 km NNE of Lake Pillsbury, CA" }

def raw2 : RawEarthquake :=
  { time := 0, mag := 3, latitude := 39, longitude := -98,
    place := "5 km SSW of Luray, Kansas" }

def raw3 : RawEarthquake :=
  { time := 0, mag := 257/100, latitude := 33, longitude := -116,
    place := "22 km ESE of Anza, CA" }

/-- Concrete raw record whose place does not resolve against tbl3. -/
def rawBad : RawEarthquake :=
  { time := 0, mag := 1, latitude := 40, longitude := -120,
    place := "Somewhere, Atlantis" }

/-! ## Specification-side descriptions for the aggregator -/

/-- State name of an event (earthquake.earthquake_location.state_name). -/
def eventName (e : Earthquake) : String :=
  e.earthquake_location.state_name

/-- State code of an event (earthquake.earthquake_location.state_code). -/
def eventCode (e : Earthquake) : String :=
  e.earthquake_location.state_code

/-- Distinct elements of a list in order of first occurrence, built the
way the loop of risk_rank_by_state builds its seen list. -/
def firstOcc (l : List String) : List String :=
  l.foldl (fun acc x => if x ∈ acc then acc else acc ++ [x]) []

/-- Total magnitude of the events of a given state name. -/
def magSum (events : List Earthquake) (n : String) : ℚ :=
  ((events.filter (fun e => eventName e = n)).map Earthquake.magnitude).sum

/-- Number of events of a given state name. -/
def nameCount (events : List Earthquake) (n : String) : ℕ :=
  events.countP (fun e => eventName e = n)

/-- Expected unsorted ranking table: one entry per state name in order of
first occurrence, carrying that state's total magnitude and count. -/
def rankTable (events : List Earthquake) : List (String × RankEntry) :=
  (firstOcc (events.map eventName)).map
    (fun n => (n, ⟨magSum events n, nameCount events n⟩))

/-- Data-model invariant of AdministrativeRegion (spec section 3): the
name/code pairs carried by the events are a consistent bidirectional
mapping, so two events share a code exactly when they share a name. -/
def ConsistentRegions (events : List Earthquake) : Prop :=
  ∀ e1 ∈ events, ∀ e2 ∈ events,
    (eventCode e1 = eventCode e2 ↔ eventName e1 = eventName e2)

/-- Concrete Texas earthquake of a given magnitude. -/
def quakeTX (m : ℚ) : Earthquake :=
  { time := 0, magnitude := m, latitude := 32, longitude := -101,
    earthquake_location := { state_name := "Texas", state_code := "TX" } }

theorem strSplitAux_ne_nil (acc s) : strSplitAux acc s ≠ [] := by
  induction acc, s using strSplitAux.induct with
  | case1 acc => simp [strSplitAux]
  | case2 acc rest ih => simp [strSplitAux]
  | case3 acc c cs h ih => simpa [strSplitAux] using ih

theorem splitCommaSpace_ne_nil (s) : splitCommaSpace s ≠ [] :=
  strSplitAux_ne_nil [] s

theorem splitCommaSpace_getLast? (s) :
    (splitCommaSpace s).getLast? = some ((splitCommaSpace s).getLastD []) := by
  cases h : (splitCommaSpace s).getLast? with
  | none => exact absurd (List.getLast?_eq_none_iff.mp h) (splitCommaSpace_ne_nil s)
  | some a => simp [List.getLastD_eq_getLast?, h]

/-! ### Dict lemmas -/

theorem keys_dictInsert {α β : Type} [DecidableEq α] (d : List (α × β)) (k v) :
    (dictInsert d k v).map Prod.fst =
      if k ∈ d.map Prod.fst then d.map Prod.fst else d.map Prod.fst ++ [k] := by
  induction d with
  | nil => simp [dictInsert]
  | cons p rest ih =>
      obtain ⟨k', v'⟩ := p
      by_cases hk : k' = k
      · subst hk
        simp [dictInsert]
      · have hk2 : ¬ k = k' := fun h => hk h.symm
        simp only [dictInsert, if_neg hk, List.map_cons, ih, List.mem_cons, hk2,
          false_or]
        by_cases hmem : k ∈ rest.map Prod.fst <;> simp [hmem]

theorem nodup_keys_dictInsert {α β : Type} [DecidableEq α]
    {d : List (α × β)} (k v) (h : (d.map Prod.fst).Nodup) :
    ((dictInsert d k v).map Prod.fst).Nodup := by
  rw [keys_dictInsert]
  by_cases hmem : k ∈ d.map Prod.fst
  · simpa [hmem] using h
  · rw [if_neg hmem, List.nodup_append]
    refine ⟨h, by simp, ?_⟩
    intro x hx hxk
    rw [List.mem_singleton] at hxk
    exact hmem (hxk ▸ hx)

theorem mem_dictInsert {α β : Type} [DecidableEq α]
    {d : List (α × β)} {k v p} (h : p ∈ dictInsert d k v) :
    p = (k, v) ∨ p ∈ d := by
  induction d with
  | nil => simpa [dictInsert] using h
  | cons q rest ih =>
      obtain ⟨k', v'⟩ := q
      by_cases hk : k' = k
      · subst hk
        rcases (by simpa [dictInsert] using h : p = (k', v) ∨ p ∈ rest) with h1 | h2
        · exact .inl (by simp [h1])
        · exact .inr (by simp [h2])
      · rcases (by simpa [dictInsert, hk] using h :
            p = (k', v') ∨ p ∈ dictInsert rest k v) with h1 | h2
        · exact .inr (by simp [h1])
        · rcases ih h2 with h3 | h4
          · exact .inl h3
          · exact .inr (by simp [h4])

theorem foldl_dictInsert_nodup {α β : Type} [DecidableEq α] :
    ∀ (l d : List (α × β)), (d.map Prod.fst).Nodup →
      ((l.foldl (fun d p => dictInsert d p.1 p.2) d).map Prod.fst).Nodup := by
  intro l
  induction l with
  | nil => intro d hd; simpa using hd
  | cons p rest ih =>
      intro d hd
      rw [List.foldl_cons]
      exact ih _ (nodup_keys_dictInsert p.1 p.2 hd)

theorem nodup_keys_pyDict {α β : Type} [DecidableEq α] (l : List (α × β)) :
    ((pyDict l).map Prod.fst).Nodup :=
  foldl_dictInsert_nodup l [] (by simp)

theorem foldl_dictInsert_mem {α β : Type} [DecidableEq α] :
    ∀ (l d : List (α × β)) (p : α × β),
      p ∈ l.foldl (fun d q => dictInsert d q.1 q.2) d → p ∈ l ∨ p ∈ d := by
  intro l
  induction l with
  | nil => intro d p h; exact .inr (by simpa using h)
  | cons q rest ih =>
      intro d p h
      rw [List.foldl_cons] at h
      rcases ih _ _ h with h1 | h1
      · exact .inl (by simp [h1])
      · rcases mem_dictInsert h1 with h2 | h2
        · exact .inl (by simp [h2])
        · exact .inr h2

theorem mem_pyDict_sub {α β : Type} [DecidableEq α]
    {l : List (α × β)} {p} (h : p ∈ pyDict l) : p ∈ l := by
  rcases foldl_dictInsert_mem l [] p h with h1 | h1
  · exact h1
  · simp at h1

theorem foldl_dictInsert_keys {α β : Type} [DecidableEq α] (k : α) :
    ∀ (l d : List (α × β)),
      (k ∈ (l.foldl (fun d q => dictInsert d q.1 q.2) d).map Prod.fst ↔
        k ∈ l.map Prod.fst ∨ k ∈ d.map Prod.fst) := by
  intro l
  induction l with
  | nil => intro d; simp
  | cons q rest ih =>
      intro d
      rw [List.foldl_cons, ih, keys_dictInsert]
      by_cases hmem : q.1 ∈ d.map Prod.fst
      · simp only [if_pos hmem, List.map_cons, List.mem_cons]
        constructor
        · rintro (h1 | h1)
          · exact .inl (.inr h1)
          · exact .inr h1
        · rintro ((h1 | h1) | h1)
          · exact .inr (h1 ▸ hmem)
          · exact .inl h1
          · exact .inr h1
      · simp only [if_neg hmem, List.map_cons, List.mem_cons, List.mem_append,
          List.mem_singleton]
        tauto

theorem keys_pyDict_mem {α β : Type} [DecidableEq α] (l : List (α × β)) (k : α) :
    k ∈ (pyDict l).map Prod.fst ↔ k ∈ l.map Prod.fst := by
  simpa using foldl_dictInsert_keys k l []

theorem mem_of_pyLookup_eq_some {α β : Type} [DecidableEq α]
    {d : List (α × β)} {k v} (h : pyLookup d k = some v) : (k, v) ∈ d := by
  induction d with
  | nil => simp [pyLookup] at h
  | cons p rest ih =>
      obtain ⟨k', v'⟩ := p
      by_cases hk : k' = k
      · subst hk
        have : v' = v := by simpa [pyLookup] using h
        simp [this]
      · have h2 : pyLookup rest k = some v := by simpa [pyLookup, hk] using h
        simp [ih h2]

theorem pyLookup_eq_some_of_mem {α β : Type} [DecidableEq α]
    {d : List (α × β)} {k v} (hnd : (d.map Prod.fst).Nodup)
    (h : (k, v) ∈ d) : pyLookup d k = some v := by
  induction d with
  | nil => simp at h
  | cons p rest ih =>
      obtain ⟨k', v'⟩ := p
      rcases (by simpa using h : (k = k' ∧ v = v') ∨ (k, v) ∈ rest) with h1 | h1
      · obtain ⟨hk, hv⟩ := h1
        simp [pyLookup, hk.symm, hv]
      · have hcons := List.nodup_cons.mp
          (by simpa using hnd : (k' :: rest.map Prod.fst).Nodup)
        have hk : k' ≠ k := by
          rintro rfl
          exact hcons.1 (List.mem_map_of_mem Prod.fst h1)
        simp only [pyLookup, if_neg hk]
        exact ih hcons.2 h1

theorem pyLookup_isSome_iff {α β : Type} [DecidableEq α]
    (d : List (α × β)) (k : α) :
    (pyLookup d k).isSome ↔ k ∈ d.map Prod.fst := by
  induction d with
  | nil => simp [pyLookup]
  | cons p rest ih =>
      obtain ⟨k', v'⟩ := p
      by_cases hk : k' = k
      · subst hk
        simp [pyLookup]
      · have hk2 : ¬ k = k' := fun h => hk h.symm
        simp [pyLookup, hk, ih, hk2]

/-! ### Location resolver lemmas -/

theorem parse_earthquake_location_eq (rows : List (String × String))
    (place : String) :
    parse_earthquake_location rows place =
      (let state_name := region_designator place
       if state_name ∈ skipped_states then
         .ok none
       else if state_name.length = 2 then
         match pyLookup (us_state_code_to_name_map rows) state_name with
         | none => .ok none
         | some nm => .ok (some ⟨nm, state_name⟩)
       else
         match pyLookup (us_state_name_to_code_map rows) state_name with
         | none => .ok none
         | some code => .ok (some ⟨state_name, code⟩)) := by
  unfold parse_earthquake_location region_designator
  rw [splitCommaSpace_getLast?]

theorem parse_earthquake_location_isOk (rows : List (String × String))
    (place : String) :
    ∃ r, parse_earthquake_location rows place = .ok r := by
  rw [parse_earthquake_location_eq]
  by_cases h1 : region_designator place ∈ skipped_states
  · exact ⟨none, by simp [h1]⟩
  · by_cases h2 : (region_designator place).length = 2
    · cases h3 : pyLookup (us_state_code_to_name_map rows)
          (region_designator place) with
      | none => exact ⟨none, by simp [h1, h2, h3]⟩
      | some nm =>
          exact ⟨some ⟨nm, region_designator place⟩, by simp [h1, h2, h3]⟩
    · cases h3 : pyLookup (us_state_name_to_code_map rows)
          (region_designator place) with
      | none => exact ⟨none, by simp [h1, h2, h3]⟩
      | some code =>
          exact ⟨some ⟨region_designator place, code⟩, by simp [h1, h2, h3]⟩

/-- C10: parse_earthquake_location is total: on every place string it
returns a result (a location or None) and raises no exception — splitting
always yields at least one token to pop, and the KeyError of a failed
table lookup is caught internally. -/
theorem parse_earthquake_location_never_raises (rows : List (String × String))
    (place : String) :
    ∃ r, parse_earthquake_location rows place = .ok r :=
  parse_earthquake_location_isOk rows place

/-- C3 (amended): the fixed exclusion set consists of one variant for
Canada and two for Mexico; every place string whose region designator
(the last comma-separated token) is in that set resolves to absent. -/
theorem parse_skipped_designator_absent (rows : List (String × String))
    (place : String) (h : region_designator place ∈ skipped_states) :
    skipped_states = ["Canada", "MX", "Mexico"] ∧
      parse_earthquake_location rows place = .ok none := by
  refine ⟨rfl, ?_⟩
  rw [parse_earthquake_location_eq]
  simp [h]

/-- Witness for C3: a concrete Canada place resolves to absent. -/
theorem parse_skipped_designator_absent_witness :
    region_designator "100 km S of Whitehorse, Canada" ∈ skipped_states ∧
      parse_earthquake_location [("CA", "California")]
        "100 km S of Whitehorse, Canada" = .ok none :=
  ⟨by decide,
   (parse_skipped_designator_absent [("CA", "California")]
      "100 km S of Whitehorse, Canada" (by decide)).2⟩

/-- Counterexample for C3 as stated: the exclusion set cannot consist of
two variants for Canada plus two variants for Mexico, because it has only
three members. -/
theorem skipped_states_not_two_plus_two :
    ¬ ∃ c₁ c₂ m₁ m₂ : String, c₁ ≠ c₂ ∧ skipped_states = [c₁, c₂, m₁, m₂] := by
  rintro ⟨c₁, c₂, m₁, m₂, hne, h⟩
  have h4 : skipped_states.length = 4 := by rw [h]; rfl
  have h3 : skipped_states.length = 3 := rfl
  rw [h3] at h4
  exact absurd h4 (by decide)

/-- C6: for a place whose designator is not excluded, a 2-character
designator is treated as a code and looked up in the code-to-name table,
any other designator is treated as a full name and looked up in the
name-to-code table; a failed lookup yields absent (None), not an
exception. -/
theorem parse_designator_lookup (rows : List (String × String))
    (place : String) (h : region_designator place ∉ skipped_states) :
    ((region_designator place).length = 2 →
       (pyLookup (us_state_code_to_name_map rows) (region_designator place)
          = none → parse_earthquake_location rows place = .ok none) ∧
       (∀ nm, pyLookup (us_state_code_to_name_map rows) (region_designator place)
          = some nm →
          parse_earthquake_location rows place =
            .ok (some ⟨nm, region_designator place⟩))) ∧
    ((region_designator place).length ≠ 2 →
       (pyLookup (us_state_name_to_code_map rows) (region_designator place)
          = none → parse_earthquake_location rows place = .ok none) ∧
       (∀ code, pyLookup (us_state_name_to_code_map rows) (region_designator place)
          = some code →
          parse_earthquake_location rows place =
            .ok (some ⟨region_designator place, code⟩))) := by
  constructor
  · intro h2
    constructor
    · intro h3
      rw [parse_earthquake_location_eq]
      simp [h, h2, h3]
    · intro nm h3
      rw [parse_earthquake_location_eq]
      simp [h, h2, h3]
  · intro h2
    constructor
    · intro h3
      rw [parse_earthquake_location_eq]
      simp [h, h2, h3]
    · intro code h3
      rw [parse_earthquake_location_eq]
      simp [h, h2, h3]

/-- Witness for C6: with a two-row table, a 2-character designator
resolves through the code table, and an unrecognized long designator
yields absent. -/
theorem parse_designator_lookup_witness :
    region_designator "Somewhere, Atlantis" ∉ skipped_states ∧
      (region_designator "Somewhere, Atlantis").length ≠ 2 ∧
      pyLookup
        (us_state_name_to_code_map [("CA", "California"), ("TX", "Texas")])
        (region_designator "Somewhere, Atlantis") = none ∧
      parse_earthquake_location [("CA", "California"), ("TX", "Texas")]
        "Somewhere, Atlantis" = .ok none :=
  ⟨by decide, by decide, by decide,
   ((parse_designator_lookup [("CA", "California"), ("TX", "Texas")]
        "Somewhere, Atlantis" (by decide)).2 (by decide)).1 (by decide)⟩

/-- C5: the name-to-code table is the inversion of the code-to-name
table, and for every supported region name (a value of the code-to-name
table) the code obtained from the name-to-code table maps back to the
original name. -/
theorem state_maps_mutual_inverse (rows : List (String × String))
    (name : String)
    (h : name ∈ (us_state_code_to_name_map rows).map Prod.snd) :
    ∃ code, pyLookup (us_state_name_to_code_map rows) name = some code ∧
      pyLookup (us_state_code_to_name_map rows) code = some name := by
  have hkey : name ∈ (us_state_name_to_code_map rows).map Prod.fst := by
    rw [us_state_name_to_code_map, keys_pyDict_mem]
    simpa [List.map_map, Function.comp] using h
  obtain ⟨code, hcode⟩ :=
    Option.isSome_iff_exists.mp ((pyLookup_isSome_iff _ _).mpr hkey)
  refine ⟨code, hcode, ?_⟩
  have h1 : (name, code) ∈ us_state_name_to_code_map rows :=
    mem_of_pyLookup_eq_some hcode
  have h2 : (name, code) ∈
      (us_state_code_to_name_map rows).map (fun p => (p.2, p.1)) :=
    mem_pyDict_sub h1
  have h3 : (code, name) ∈ us_state_code_to_name_map rows := by
    rcases List.mem_map.mp h2 with ⟨p, hp, he⟩
    obtain ⟨pc, pn⟩ := p
    cases he
    exact hp
  exact pyLookup_eq_some_of_mem (nodup_keys_pyDict rows) h3

/-- Witness for C5: the round trip on a concrete two-row table at the
name Texas. -/
theorem state_maps_mutual_inverse_witness :
    "Texas" ∈ (us_state_code_to_name_map
        [("CA", "California"), ("TX", "Texas")]).map Prod.snd ∧
      ∃ code, pyLookup (us_state_name_to_code_map
          [("CA", "California"), ("TX", "Texas")]) "Texas" = some code ∧
        pyLookup (us_state_code_to_name_map
          [("CA", "California"), ("TX", "Texas")]) code = some "Texas" :=
  ⟨by decide,
   state_maps_mutual_inverse [("CA", "California"), ("TX", "Texas")] "Texas"
     (by decide)⟩

/-- C9: is_within_distance is true exactly when the haversine distance is
at most the limit; the radius bound is inclusive. -/
theorem is_within_distance_iff (M : MathModel)
    (latitude_1 longitude_1 latitude_2 longitude_2 limit_distance : ℚ) :
    is_within_distance M latitude_1 longitude_1 latitude_2 longitude_2
        limit_distance = true ↔
      haversine_distance M latitude_1 longitude_1 latitude_2 longitude_2 ≤
        limit_distance := by
  simp [is_within_distance]

/-! ### Risk scorer lemmas -/

theorem foldl_stats_eq (P : Earthquake → Bool) :
    ∀ (l : List Earthquake) (acc : ℚ × ℕ),
      l.foldl (fun acc e => if P e then (acc.1 + e.magnitude, acc.2 + 1) else acc)
          acc =
        (acc.1 + ((l.filter P).map Earthquake.magnitude).sum,
         acc.2 + (l.filter P).length) := by
  intro l
  induction l with
  | nil => intro acc; simp
  | cons e rest ih =>
      intro acc
      by_cases hP : P e
      · rw [List.foldl_cons, if_pos hP, ih, List.filter_cons_of_pos hP]
        refine Prod.ext ?_ ?_
        · simp
          ring
        · simp
          omega
      · rw [List.foldl_cons, if_neg hP, ih, List.filter_cons_of_neg hP]

theorem nearby_stats_eq (M : MathModel) (events : List Earthquake)
    (loc : ClientLocation) :
    nearby_stats M events loc =
      (((nearby_filter M events loc).map Earthquake.magnitude).sum,
       (nearby_filter M events loc).length) := by
  unfold nearby_stats nearby_filter
  simpa using foldl_stats_eq _ events (0, 0)

/-- C2: the reference scoring computation does not special-case zero
nearby events.  First conjunct: the division-by-zero branch of step 3
(average magnitude) is reachable, at a concrete location with an empty
event list.  Second conjunct: the scorer raises that error exactly when
the 200 km radius contains no events, so it avoids it exactly under the
precondition nearbyEventCount > 0. -/
theorem scoring_avg_div_zero_iff_no_nearby :
    calculate_earthquake_risk_for_location M0 [] loc0 =
        .error .zeroDivAvgMagnitude ∧
    ∀ (M : MathModel) (events : List Earthquake) (loc : ClientLocation),
      calculate_earthquake_risk_for_location M events loc =
          .error .zeroDivAvgMagnitude ↔
        (nearby_filter M events loc).length = 0 := by
  constructor
  · rfl
  · intro M events loc
    have hs : (nearby_stats M events loc).2 = (nearby_filter M events loc).length := by
      rw [nearby_stats_eq]
    constructor
    · intro h
      by_contra hne
      have hN : (nearby_stats M events loc).2 ≠ 0 := by
        rw [hs]; exact hne
      unfold calculate_earthquake_risk_for_location at h
      rw [if_neg hN] at h
      simp only [] at h
      split at h
      · exact absurd h (by simp)
      · split at h
        · exact absurd h (by simp)
        · exact absurd h (by simp)
    · intro h0
      have hN : (nearby_stats M events loc).2 = 0 := by rw [hs]; exact h0
      unfold calculate_earthquake_risk_for_location
      rw [if_pos hN]

theorem insure_iff (t : ℚ) :
    (if t ≥ 0.22 then false else true) = false ↔ t ≥ 0.22 := by
  by_cases h : t ≥ 0.22 <;> simp [h]

theorem calculate_eq_ok_of (M : MathModel) (events : List Earthquake)
    (loc : ClientLocation)
    (hN : (nearby_stats M events loc).2 ≠ 0)
    (hB : MAX_MAGNITUDE -
        (nearby_stats M events loc).1 / ((nearby_stats M events loc).2 : ℚ) ≠ 0)
    (hC : (1000 : ℚ) - ((nearby_stats M events loc).2 : ℚ) ≠ 0) :
    calculate_earthquake_risk_for_location M events loc = .ok
      { loc with
          nearby_total_magnitude := some (nearby_stats M events loc).1
          nearby_earthquakes := some (nearby_stats M events loc).2
          earthquake_risk := some
            { nearby_earthquakes := (nearby_stats M events loc).2
              nearby_total_magnitude := (nearby_stats M events loc).1
              avg_magnitude := (nearby_stats M events loc).1 /
                ((nearby_stats M events loc).2 : ℚ)
              magnitude_factor := 1 / (MAX_MAGNITUDE -
                (nearby_stats M events loc).1 / ((nearby_stats M events loc).2 : ℚ))
              num_quakes_factor :=
                (1 / (1000 - ((nearby_stats M events loc).2 : ℚ))) * 100
              total_risk_factor := 1 / (MAX_MAGNITUDE -
                  (nearby_stats M events loc).1 /
                    ((nearby_stats M events loc).2 : ℚ)) +
                (1 / (1000 - ((nearby_stats M events loc).2 : ℚ))) * 100
              should_insure := if (1 / (MAX_MAGNITUDE -
                    (nearby_stats M events loc).1 /
                      ((nearby_stats M events loc).2 : ℚ)) +
                  (1 / (1000 - ((nearby_stats M events loc).2 : ℚ))) * 100) ≥ 0.22
                then false else true } } := by
  unfold calculate_earthquake_risk_for_location
  rw [if_neg hN]
  simp only []
  rw [if_neg hB, if_neg hC]

/-- C1 (amended): whenever the 200 km radius holds N > 0 events of
magnitude sum T, and the two remaining divisors are non-degenerate
(average magnitude not exactly 10, N not exactly 1000), the scorer
returns an assessment with averageMagnitude = T/N, the stated magnitude
and count factors, their sum as total risk factor, and shouldInsure false
exactly when the total risk factor is at least 0.22. -/
theorem risk_scoring_formula (M : MathModel) (events : List Earthquake)
    (loc : ClientLocation)
    (hN : 0 < (nearby_filter M events loc).length)
    (havg : ((nearby_filter M events loc).map Earthquake.magnitude).sum /
        ((nearby_filter M events loc).length : ℚ) ≠ 10)
    (hcount : (nearby_filter M events loc).length ≠ 1000) :
    ∃ loc' risk,
      calculate_earthquake_risk_for_location M events loc = .ok loc' ∧
      loc'.earthquake_risk = some risk ∧
      risk.nearby_earthquakes = (nearby_filter M events loc).length ∧
      risk.nearby_total_magnitude =
        ((nearby_filter M events loc).map Earthquake.magnitude).sum ∧
      risk.avg_magnitude =
        risk.nearby_total_magnitude / (risk.nearby_earthquakes : ℚ) ∧
      risk.magnitude_factor = 1 / (10 - risk.avg_magnitude) ∧
      risk.num_quakes_factor =
        (1 / (1000 - (risk.nearby_earthquakes : ℚ))) * 100 ∧
      risk.total_risk_factor = risk.magnitude_factor + risk.num_quakes_factor ∧
      (risk.should_insure = false ↔ risk.total_risk_factor ≥ 0.22) := by
  have hs := nearby_stats_eq M events loc
  have h2 : (nearby_stats M events loc).2 = (nearby_filter M events loc).length := by
    rw [hs]
  have h1 : (nearby_stats M events loc).1 =
      ((nearby_filter M events loc).map Earthquake.magnitude).sum := by
    rw [hs]
  have hN' : (nearby_stats M events loc).2 ≠ 0 := by rw [h2]; omega
  have hB : MAX_MAGNITUDE -
      (nearby_stats M events loc).1 / ((nearby_stats M events loc).2 : ℚ) ≠ 0 := by
    rw [h1, h2]
    intro h0
    apply havg
    have h10 : MAX_MAGNITUDE = (10 : ℚ) := rfl
    rw [h10] at h0
    linarith
  have hC : (1000 : ℚ) - ((nearby_stats M events loc).2 : ℚ) ≠ 0 := by
    rw [h2]
    intro h0
    apply hcount
    have hq : ((nearby_filter M events loc).length : ℚ) = 1000 := by linarith
    exact_mod_cast hq
  rw [calculate_eq_ok_of M events loc hN' hB hC]
  refine ⟨_, _, rfl, rfl, h2, h1, rfl, rfl, rfl, rfl, insure_iff _⟩

theorem is_within_M0 (a b c d lim : ℚ) (h : 0 ≤ lim) :
    is_within_distance M0 a b c d lim = true := by
  unfold is_within_distance haversine_distance
  simp only [M0, MathModel.radians, decide_eq_true_eq]
  norm_num
  exact h

theorem nearby_filter_M0 (events : List Earthquake) (loc : ClientLocation) :
    nearby_filter M0 events loc = events := by
  unfold nearby_filter
  apply List.filter_eq_self.mpr
  intro e he
  exact is_within_M0 _ _ _ _ _ (by norm_num [NEARBY_EARTHQUAKE_RADIUS_KM])

theorem nearby_stats_M0_single (m : ℚ) (loc : ClientLocation) :
    nearby_stats M0 [quake m] loc = (m, 1) := by
  rw [nearby_stats_eq, nearby_filter_M0]
  simp [quake]

/-- Counterexample for C1 as stated: a single nearby event of magnitude
10 gives N = 1 > 0, yet the scorer raises ZeroDivisionError at the
magnitude-factor division (average magnitude = 10) instead of returning
an assessment. -/
theorem risk_scoring_formula_counterexample :
    (nearby_filter M0 [quake 10] loc0).length = 1 ∧
      calculate_earthquake_risk_for_location M0 [quake 10] loc0 =
        .error .zeroDivMagnitudeFactor := by
  constructor
  · rw [nearby_filter_M0]
    rfl
  · unfold calculate_earthquake_risk_for_location
    rw [nearby_stats_M0_single]
    norm_num [MAX_MAGNITUDE]

/-- Witness for C1: one nearby event of magnitude 2 gives N = 1, T = 2,
average 2, magnitude factor 1/8, count factor 100/999, total 1799/7992,
declined. -/
theorem risk_scoring_formula_witness :
    0 < (nearby_filter M0 [quake 2] loc0).length ∧
    ((nearby_filter M0 [quake 2] loc0).map Earthquake.magnitude).sum /
        ((nearby_filter M0 [quake 2] loc0).length : ℚ) ≠ 10 ∧
    (nearby_filter M0 [quake 2] loc0).length ≠ 1000 ∧
    (∃ loc' risk,
      calculate_earthquake_risk_for_location M0 [quake 2] loc0 = .ok loc' ∧
      loc'.earthquake_risk = some risk ∧
      risk.nearby_earthquakes = (nearby_filter M0 [quake 2] loc0).length ∧
      risk.nearby_total_magnitude =
        ((nearby_filter M0 [quake 2] loc0).map Earthquake.magnitude).sum ∧
      risk.avg_magnitude =
        risk.nearby_total_magnitude / (risk.nearby_earthquakes : ℚ) ∧
      risk.magnitude_factor = 1 / (10 - risk.avg_magnitude) ∧
      risk.num_quakes_factor =
        (1 / (1000 - (risk.nearby_earthquakes : ℚ))) * 100 ∧
      risk.total_risk_factor = risk.magnitude_factor + risk.num_quakes_factor ∧
      (risk.should_insure = false ↔ risk.total_risk_factor ≥ 0.22)) := by
  have hfil : nearby_filter M0 [quake 2] loc0 = [quake 2] :=
    nearby_filter_M0 _ _
  have h1 : 0 < (nearby_filter M0 [quake 2] loc0).length := by
    rw [hfil]; norm_num
  have h2 : ((nearby_filter M0 [quake 2] loc0).map Earthquake.magnitude).sum /
      ((nearby_filter M0 [quake 2] loc0).length : ℚ) ≠ 10 := by
    rw [hfil]; simp [quake]
  have h3 : (nearby_filter M0 [quake 2] loc0).length ≠ 1000 := by
    rw [hfil]; norm_num
  exact ⟨h1, h2, h3, risk_scoring_formula M0 [quake 2] loc0 h1 h2 h3⟩

/-- Counterexample for C8 as stated: scoring also mutates the two
dynamically added aggregate attributes of the location, not only the risk
assessment — after a successful run on one nearby event, the location's
nearby_earthquakes changed from absent to 1 and nearby_total_magnitude
from absent to 2. -/
theorem scoring_mutates_beyond_risk :
    (calculate_earthquake_risk_for_location M0 [quake 2] loc0).map
        ClientLocation.nearby_earthquakes = .ok (some 1) ∧
    loc0.nearby_earthquakes = none ∧
    (calculate_earthquake_risk_for_location M0 [quake 2] loc0).map
        ClientLocation.nearby_total_magnitude = .ok (some 2) ∧
    loc0.nearby_total_magnitude = none := by
  have hstats : nearby_stats M0 [quake 2] loc0 = (2, 1) :=
    nearby_stats_M0_single 2 loc0
  have hcalc := calculate_eq_ok_of M0 [quake 2] loc0
    (by rw [hstats]; norm_num)
    (by rw [hstats]; norm_num [MAX_MAGNITUDE])
    (by rw [hstats]; norm_num)
  rw [hcalc]
  refine ⟨?_, rfl, ?_, rfl⟩
  · simp [Except.map, hstats]
  · simp [Except.map, hstats]

/-- C8 (amended): a successful scoring run leaves the seven
address/coordinate fields of the location unchanged and mutates exactly
the risk assessment plus the two nearby-aggregate attributes. -/
theorem scoring_frame (M : MathModel) (events : List Earthquake)
    (loc loc' : ClientLocation)
    (h : calculate_earthquake_risk_for_location M events loc = .ok loc') :
    loc'.building_name = loc.building_name ∧
    loc'.location = loc.location ∧
    loc'.city = loc.city ∧
    loc'.state = loc.state ∧
    loc'.full_address = loc.full_address ∧
    loc'.latitude = loc.latitude ∧
    loc'.longitude = loc.longitude ∧
    loc'.nearby_total_magnitude =
      some (((nearby_filter M events loc).map Earthquake.magnitude).sum) ∧
    loc'.nearby_earthquakes = some ((nearby_filter M events loc).length) ∧
    (∃ risk, loc'.earthquake_risk = some risk) := by
  by_cases hN : (nearby_stats M events loc).2 = 0
  · unfold calculate_earthquake_risk_for_location at h
    rw [if_pos hN] at h
    exact absurd h (by simp)
  · unfold calculate_earthquake_risk_for_location at h
    rw [if_neg hN] at h
    simp only [] at h
    split at h
    · exact absurd h (by simp)
    · split at h
      · exact absurd h (by simp)
      · injection h with h2
        subst h2
        refine ⟨rfl, rfl, rfl, rfl, rfl, rfl, rfl, ?_, ?_, ⟨_, rfl⟩⟩
        · rw [nearby_stats_eq]
        · rw [nearby_stats_eq]

/-- Witness for C8 (amended): the concrete successful run of the scorer
on one nearby event, with its frame conditions. -/
theorem scoring_frame_witness :
    calculate_earthquake_risk_for_location M0 [quake 2] loc0 =
        .ok locAfter0 ∧
    (locAfter0.building_name = loc0.building_name ∧
     locAfter0.location = loc0.location ∧
     locAfter0.city = loc0.city ∧
     locAfter0.state = loc0.state ∧
     locAfter0.full_address = loc0.full_address ∧
     locAfter0.latitude = loc0.latitude ∧
     locAfter0.longitude = loc0.longitude ∧
     locAfter0.nearby_total_magnitude =
       some (((nearby_filter M0 [quake 2] loc0).map Earthquake.magnitude).sum) ∧
     locAfter0.nearby_earthquakes =
       some ((nearby_filter M0 [quake 2] loc0).length) ∧
     (∃ risk, locAfter0.earthquake_risk = some risk)) := by
  have hstats : nearby_stats M0 [quake 2] loc0 = (2, 1) :=
    nearby_stats_M0_single 2 loc0
  have hcalc := calculate_eq_ok_of M0 [quake 2] loc0
    (by rw [hstats]; norm_num)
    (by rw [hstats]; norm_num [MAX_MAGNITUDE])
    (by rw [hstats]; norm_num)
  have hloc : calculate_earthquake_risk_for_location M0 [quake 2] loc0 =
      .ok locAfter0 := by
    rw [hcalc, hstats]
    norm_num [locAfter0, loc0, MAX_MAGNITUDE]
  exact ⟨hloc, scoring_frame M0 [quake 2] loc0 locAfter0 hloc⟩

/-! ### Seismic event repository lemmas -/

theorem parse_raw_fold (rows : List (String × String)) :
    ∀ (l : List RawEarthquake) (acc : List Earthquake),
      l.foldl (parse_raw_step rows) (.ok acc) =
        .ok (acc ++ l.filterMap (resolveEvent rows)) := by
  intro l
  induction l with
  | nil => intro acc; simp
  | cons raw rest ih =>
      intro acc
      rw [List.foldl_cons]
      obtain ⟨r, hr⟩ := parse_earthquake_location_isOk rows raw.place
      have hstep : parse_raw_step rows (.ok acc) raw =
          .ok (acc ++ (resolveEvent rows raw).toList) := by
        cases r with
        | none =>
            simp [parse_raw_step, resolveEvent, hr, Bind.bind, Except.bind,
              Option.toList]
        | some loc =>
            simp [parse_raw_step, resolveEvent, hr, Bind.bind, Except.bind,
              Option.toList]
      rw [hstep, ih]
      cases hres : resolveEvent rows raw with
      | none => simp [List.filterMap_cons, hres]
      | some ev => simp [List.filterMap_cons, hres]

/-- C7: parse yields exactly one event per raw record whose place
resolves and drops every record whose place is unresolvable: the result
is the filterMap of per-record resolution, and its length counts the
resolvable records; in particular the three mock records (all resolving
against tbl3) yield exactly 3 events, and inserting one unresolvable
record among them leaves the count at 3 (that record alone is dropped,
shrinking the count of the now four records by exactly 1). -/
theorem parse_raw_drops_unresolvable (rows : List (String × String))
    (raw_data : List RawEarthquake) :
    parse_raw_earthquake_data rows raw_data =
      .ok (raw_data.filterMap (resolveEvent rows)) ∧
    (raw_data.filterMap (resolveEvent rows)).length =
      raw_data.countP (fun raw => (resolveEvent rows raw).isSome) ∧
    (List.filterMap (resolveEvent tbl3) [raw1, raw2, raw3]).length = 3 ∧
    (List.filterMap (resolveEvent tbl3) [raw1, raw2, rawBad, raw3]).length = 3 := by
  refine ⟨?_, ?_, ?_, ?_⟩
  · unfold parse_raw_earthquake_data
    simpa using parse_raw_fold rows raw_data []
  · induction raw_data with
    | nil => simp
    | cons r rest ih =>
        cases h : resolveEvent rows r <;>
          simp [List.filterMap_cons, List.countP_cons, h, ih]
  · decide
  · decide

/-! ### Aggregator lemmas -/

theorem foldl_firstOcc_mem (x : String) :
    ∀ (l acc : List String),
      x ∈ l.foldl (fun acc y => if y ∈ acc then acc else acc ++ [y]) acc ↔
        x ∈ l ∨ x ∈ acc := by
  intro l
  induction l with
  | nil => intro acc; simp
  | cons y rest ih =>
      intro acc
      rw [List.foldl_cons]
      by_cases hy : y ∈ acc
      · rw [if_pos hy, ih]
        constructor
        · rintro (h | h)
          · exact .inl (by simp [h])
          · exact .inr h
        · rintro (h | h)
          · rcases (by simpa using h : x = y ∨ x ∈ rest) with h1 | h1
            · exact .inr (by rw [h1]; exact hy)
            · exact .inl h1
          · exact .inr h
      · rw [if_neg hy, ih]
        simp only [List.mem_cons, List.mem_append, List.mem_singleton]
        tauto

theorem mem_firstOcc (x : String) (l : List String) :
    x ∈ firstOcc l ↔ x ∈ l := by
  unfold firstOcc
  rw [foldl_firstOcc_mem]
  simp

theorem firstOcc_concat (l : List String) (x : String) :
    firstOcc (l ++ [x]) =
      if x ∈ l then firstOcc l else firstOcc l ++ [x] := by
  unfold firstOcc
  rw [List.foldl_append]
  simp only [List.foldl_cons, List.foldl_nil]
  rcases Classical.em (x ∈ l) with h | h
  · rw [if_pos ((foldl_firstOcc_mem x l []).mpr (.inl h)), if_pos h]
  · have hx : x ∉ l.foldl (fun acc y => if y ∈ acc then acc else acc ++ [y]) [] := by
      intro hmem
      rcases (foldl_firstOcc_mem x l []).mp hmem with h1 | h1
      · exact h h1
      · simp at h1
    rw [if_neg hx, if_neg h]

theorem magSum_concat (l : List Earthquake) (e : Earthquake) (n : String) :
    magSum (l ++ [e]) n =
      magSum l n + (if eventName e = n then e.magnitude else 0) := by
  unfold magSum
  rw [List.filter_append]
  by_cases h : eventName e = n
  · simp [h]
  · simp [h]

theorem nameCount_concat (l : List Earthquake) (e : Earthquake) (n : String) :
    nameCount (l ++ [e]) n =
      nameCount l n + (if eventName e = n then 1 else 0) := by
  unfold nameCount
  rw [List.countP_append]
  by_cases h : eventName e = n
  · simp [h]
  · simp [h]

theorem magSum_eq_zero {l : List Earthquake} {n : String}
    (h : n ∉ l.map eventName) : magSum l n = 0 := by
  unfold magSum
  have hfil : l.filter (fun e => eventName e = n) = [] := by
    rw [List.filter_eq_nil_iff]
    intro e he hdec
    exact h (List.mem_map.mpr ⟨e, he, by simpa using hdec⟩)
  rw [hfil]
  simp

theorem nameCount_eq_zero {l : List Earthquake} {n : String}
    (h : n ∉ l.map eventName) : nameCount l n = 0 := by
  unfold nameCount
  rw [List.countP_eq_zero]
  intro e he hdec
  exact h (List.mem_map.mpr ⟨e, he, by simpa using hdec⟩)

theorem risk_rank_fold_eq :
    ∀ (events : List Earthquake), ConsistentRegions events →
      risk_rank_fold events =
        .ok (rankTable events, firstOcc (events.map eventCode)) := by
  intro events
  induction events using List.reverseRecOn with
  | nil => intro hcons; rfl
  | append_singleton l e ih =>
      intro hcons
      have hconsl : ConsistentRegions l := by
        intro e1 h1 e2 h2
        exact hcons e1 (List.mem_append_left _ h1) e2 (List.mem_append_left _ h2)
      have hfold : risk_rank_fold (l ++ [e]) =
          risk_rank_fold l >>= fun st => risk_rank_step st e := by
        unfold risk_rank_fold
        rw [List.foldl_append]
        simp
      have he : e ∈ l ++ [e] := List.mem_append_right _ (by simp)
      have hcode_name : eventCode e ∈ l.map eventCode ↔
          eventName e ∈ l.map eventName := by
        constructor
        · intro h
          rcases List.mem_map.mp h with ⟨e1, he1, hc⟩
          have hiff := hcons e1 (List.mem_append_left _ he1) e he
          exact List.mem_map.mpr ⟨e1, he1, hiff.mp hc⟩
        · intro h
          rcases List.mem_map.mp h with ⟨e1, he1, hn⟩
          have hiff := hcons e1 (List.mem_append_left _ he1) e he
          exact List.mem_map.mpr ⟨e1, he1, hiff.mpr hn⟩
      rw [hfold, ih hconsl]
      simp only [Bind.bind, Except.bind]
      unfold risk_rank_step
      simp only []
      rw [show e.earthquake_location.state_code = eventCode e from rfl,
        show e.earthquake_location.state_name = eventName e from rfl]
      by_cases hseen : eventCode e ∈ firstOcc (l.map eventCode)
      · rw [if_pos hseen]
        have hcodemem : eventCode e ∈ l.map eventCode :=
          (mem_firstOcc _ _).mp hseen
        have hname : eventName e ∈ l.map eventName := hcode_name.mp hcodemem
        have hkey : eventName e ∈ (rankTable l).map Prod.fst := by
          unfold rankTable
          rw [List.map_map]
          simpa using (mem_firstOcc _ _).mpr hname
        unfold rankingUpdate
        rw [if_pos hkey]
        simp only [Bind.bind, Except.bind]
        have hA : (rankTable l).map (fun p =>
            if p.1 = eventName e then
              (p.1, (⟨p.2.magnitude + e.magnitude, p.2.count + 1⟩ : RankEntry))
            else p) = rankTable (l ++ [e]) := by
          unfold rankTable
          rw [List.map_append]
          simp only [List.map_cons, List.map_nil]
          rw [firstOcc_concat, if_pos hname, List.map_map]
          apply List.map_congr_left
          intro n hn
          by_cases heq : n = eventName e
          · simp [Function.comp, heq, magSum_concat, nameCount_concat]
          · simp [Function.comp, heq, magSum_concat, nameCount_concat,
              Ne.symm heq]
        have hB : firstOcc (l.map eventCode) =
            firstOcc ((l ++ [e]).map eventCode) := by
          rw [List.map_append]
          simp only [List.map_cons, List.map_nil]
          rw [firstOcc_concat]
          simp [hcodemem]
        rw [hA, hB]
      · rw [if_neg hseen]
        have hcode : eventCode e ∉ l.map eventCode := fun h =>
          hseen ((mem_firstOcc _ _).mpr h)
        have hname : eventName e ∉ l.map eventName := fun h =>
          hcode (hcode_name.mpr h)
        have hA : rankTable l ++ [(eventName e, (⟨e.magnitude, 1⟩ : RankEntry))] =
            rankTable (l ++ [e]) := by
          unfold rankTable
          rw [List.map_append]
          simp only [List.map_cons, List.map_nil]
          rw [firstOcc_concat, if_neg hname, List.map_append]
          congr 1
          · apply List.map_congr_left
            intro n hn
            have hn2 : n ∈ l.map eventName := (mem_firstOcc _ _).mp hn
            have hne : eventName e ≠ n := by
              intro h0
              exact hname (h0 ▸ hn2)
            simp [magSum_concat, nameCount_concat, hne]
          · simp [magSum_concat, nameCount_concat,
              magSum_eq_zero hname, nameCount_eq_zero hname]
        have hB : firstOcc (l.map eventCode) ++ [eventCode e] =
            firstOcc ((l ++ [e]).map eventCode) := by
          rw [List.map_append]
          simp only [List.map_cons, List.map_nil]
          rw [firstOcc_concat, if_neg hcode]
        rw [hA, hB]

theorem rankLE_trans : ∀ (a b c : String × RankEntry),
    rankLE a b → rankLE b c → rankLE a c := by
  intro a b c
  simp only [rankLE, decide_eq_true_eq]
  omega

theorem rankLE_total : ∀ (a b : String × RankEntry),
    rankLE a b || rankLE b a := by
  intro a b
  simp only [rankLE, Bool.or_eq_true, decide_eq_true_eq]
  omega

/-- C4: for every event sequence whose regions respect the data-model
invariant (name and code consistently paired), risk_rank_by_state
returns an ordered table with one entry per region name carrying that
region's event count and magnitude sum, ordered by descending count, and
for equal counts the region whose first event appears earlier in the
input (earlier in rankTable, which lists regions in first-occurrence
order) comes first, as Python sorted is stable. -/
theorem rank_regions_by_frequency (events : List Earthquake)
    (hcons : ConsistentRegions events) :
    ∃ R, risk_rank_by_state events = .ok R ∧
      R.Perm (rankTable events) ∧
      (∀ p ∈ R, p.1 ∈ events.map eventName ∧
        p.2.magnitude = magSum events p.1 ∧ p.2.count = nameCount events p.1) ∧
      (∀ n ∈ events.map eventName, ∃ p ∈ R, p.1 = n) ∧
      R.Pairwise (fun a b => b.2.count ≤ a.2.count) ∧
      (∀ a b, a.2.count = b.2.count → [a, b].Sublist (rankTable events) →
        [a, b].Sublist R) := by
  refine ⟨(rankTable events).mergeSort rankLE, ?_, ?_, ?_, ?_, ?_, ?_⟩
  · unfold risk_rank_by_state
    rw [risk_rank_fold_eq events hcons]
    simp [Bind.bind, Except.bind]
  · exact List.mergeSort_perm _ _
  · intro p hp
    have hp2 : p ∈ rankTable events := List.mem_mergeSort.mp hp
    rcases List.mem_map.mp hp2 with ⟨n, hn, he⟩
    cases he
    exact ⟨(mem_firstOcc _ _).mp hn, rfl, rfl⟩
  · intro n hn
    refine ⟨(n, ⟨magSum events n, nameCount events n⟩), ?_, rfl⟩
    rw [List.mem_mergeSort]
    exact List.mem_map.mpr ⟨n, (mem_firstOcc _ _).mpr hn, rfl⟩
  · have hs := List.sorted_mergeSort rankLE_trans rankLE_total (rankTable events)
    exact hs.imp (fun h => by simpa [rankLE] using h)
  · intro a b hab hsub
    apply List.pair_sublist_mergeSort rankLE_trans rankLE_total ?_ hsub
    simp [rankLE, hab]

/-- Witness for C4: three events, two Californian and one Texan, with
consistent regions. -/
theorem rank_regions_by_frequency_witness :
    ConsistentRegions [quake 2, quakeTX 3, quake 1] ∧
    (∃ R, risk_rank_by_state [quake 2, quakeTX 3, quake 1] = .ok R ∧
      R.Perm (rankTable [quake 2, quakeTX 3, quake 1]) ∧
      (∀ p ∈ R, p.1 ∈ [quake 2, quakeTX 3, quake 1].map eventName ∧
        p.2.magnitude = magSum [quake 2, quakeTX 3, quake 1] p.1 ∧
        p.2.count = nameCount [quake 2, quakeTX 3, quake 1] p.1) ∧
      (∀ n ∈ [quake 2, quakeTX 3, quake 1].map eventName, ∃ p ∈ R, p.1 = n) ∧
      R.Pairwise (fun a b => b.2.count ≤ a.2.count) ∧
      (∀ a b, a.2.count = b.2.count →
        [a, b].Sublist (rankTable [quake 2, quakeTX 3, quake 1]) →
        [a, b].Sublist R)) :=
  ⟨by unfold ConsistentRegions; decide,
   rank_regions_by_frequency [quake 2, quakeTX 3, quake 1]
     (by unfold ConsistentRegions; decide)⟩
